import Mathlib

/-!
Verification development for the lava projects keeper module.

The keeper operations (GetProjectForBlock, GetProjectDeveloperData,
GetProjectForDeveloper, AddKeysToProject, AddComputeUnitsToProject,
ValidateChainPolicies) are translated from the Go source of the
projects keeper.  The underlying fixation store (FindEntry, AppendEntry,
ModifyEntry, DeleteEntry), as well as RegisterDeveloperKey, IsAdminKey
and AppendKey from the types package, are not part of the given source
files and are modelled from the specification, as marked on each
definition.  The add-genesis-account command of cmd/lavad is embedded
separately at the end of the definitions section.
-/

/-- An association-list lookup keyed by strings, used for the physical
layout of the modelled stores. -/
def lookupStr {β : Type} : List (String × β) → String → Option β
  | [], _ => none
  | (k', v) :: rest, k => if k' == k then some v else lookupStr rest k

/-- Replace the binding of a key in an association list, or append a new
binding at the end when the key is absent. -/
def setStr {β : Type} : List (String × β) → String → β → List (String × β)
  | [], k, v => [(k, v)]
  | (k', v') :: rest, k, v =>
      if k' == k then (k, v) :: rest else (k', v') :: setStr rest k v

/-- Modelled from the spec: the per-index state of a Versioned Entry
Store entry — the ordered version list (greatest version height first)
and an optional tombstone height set by DeleteEntry. -/
structure EntryList (α : Type) where
  versions : List (Nat × α)
  deletedAt : Option Nat
deriving DecidableEq

/-- Modelled from the spec: a Versioned Entry Store (fixation store).
The store code itself is not under the given sources; the physical
layout follows section 6 of the specification.  The `faulty` component
injects substrate storage I/O faults on FindEntry for the named
indices, modelling the storage-error arm of the (error, found) return
of the Go FindEntry. -/
structure FixationStore (α : Type) where
  entries : List (String × EntryList α)
  faulty : List String
deriving DecidableEq

/-- Outcome of a FindEntry call: a substrate storage fault (non-nil
error in the Go signature), an absent entry, or the resolved payload. -/
inductive FindResult (α : Type) where
  | fault : FindResult α
  | notFound : FindResult α
  | found : α → FindResult α
deriving DecidableEq

/-- True exactly on the `found` outcome. -/
def FindResult.isFound {α : Type} : FindResult α → Bool
  | .found _ => true
  | _ => false

/-- Errors of the modelled store operations. -/
inductive StoreErr where
  | duplicateVersion : StoreErr
  | invalidHeight : StoreErr
  | notFound : StoreErr
  | fault : StoreErr
deriving DecidableEq

/-- Greatest version with height at most h, on a version list kept in
decreasing height order. -/
def findVersion {α : Type} : List (Nat × α) → Nat → FindResult α
  | [], _ => .notFound
  | (vh, p) :: rest, h => if vh ≤ h then .found p else findVersion rest h

/-- Modelled from the spec: FindEntry(index, height) resolves the
version with the greatest version height at most `height`, provided the
tombstone (if any) is still above `height`; absent entries report not
found; a substrate fault on the index reports a storage error. -/
def FindEntry {α : Type} (s : FixationStore α) (index : String) (h : Nat) :
    FindResult α :=
  if s.faulty.contains index then .fault
  else
    match lookupStr s.entries index with
    | none => .notFound
    | some el =>
        match el.deletedAt with
        | some d => if d ≤ h then .notFound else findVersion el.versions h
        | none => findVersion el.versions h

/-- Modelled from the spec: AppendEntry(index, height, entry) requires
the height to be at least the current greatest version height of the
index; equality is rejected with DuplicateVersionError; otherwise a new
greatest version is installed without altering older versions. -/
def AppendEntry {α : Type} (s : FixationStore α) (index : String) (h : Nat)
    (e : α) : FixationStore α × Except StoreErr Unit :=
  match lookupStr s.entries index with
  | none => ({ s with entries := setStr s.entries index ⟨[(h, e)], none⟩ }, .ok ())
  | some el =>
      match el.versions with
      | [] =>
          ({ s with entries := setStr s.entries index ⟨[(h, e)], el.deletedAt⟩ },
            .ok ())
      | (vh, _) :: _ =>
          if h == vh then (s, .error .duplicateVersion)
          else if h < vh then (s, .error .invalidHeight)
          else
            ({ s with entries :=
                setStr s.entries index ⟨(h, e) :: el.versions, el.deletedAt⟩ },
              .ok ())

/-- Modelled from the spec: ModifyEntry(index, height, entry) requires
an existing version; when the latest version was created at `height`
the payload is overwritten in place, otherwise the call behaves as
AppendEntry. -/
def ModifyEntry {α : Type} (s : FixationStore α) (index : String) (h : Nat)
    (e : α) : FixationStore α × Except StoreErr Unit :=
  match lookupStr s.entries index with
  | none => (s, .error .notFound)
  | some el =>
      match el.versions with
      | [] => (s, .error .notFound)
      | (vh, _) :: rest =>
          if vh == h then
            ({ s with entries :=
                setStr s.entries index ⟨(h, e) :: rest, el.deletedAt⟩ },
              .ok ())
          else AppendEntry s index h e

/-- Modelled from the spec: DeleteEntry(index, height) marks a
tombstone at the height for the index without physically removing
data. -/
def DeleteEntry {α : Type} (s : FixationStore α) (index : String) (h : Nat) :
    FixationStore α :=
  match lookupStr s.entries index with
  | none => s
  | some el =>
      { s with entries := setStr s.entries index ⟨el.versions, some h⟩ }

/-- A project key as used by AddKeysToProject: the developer key and
its vrf public key. -/
structure ProjectKey where
  key : String
  vrfpk : String
deriving DecidableEq

/-- A chain policy: the referenced chain id and the declared API
names. -/
structure ChainPolicy where
  chainId : String
  apis : List String
deriving DecidableEq

/-- A policy object: the chain policies validated by
ValidateChainPolicies. -/
structure Policy where
  chainPolicies : List ChainPolicy
deriving DecidableEq

/-- A project record payload: admin keys, developer keys, the used
compute-unit accumulator, and the two policies. -/
structure Project where
  index : String
  adminKeys : List String
  projectKeys : List ProjectKey
  usedCu : Nat
  adminPolicy : Policy
  subscriptionPolicy : Policy
deriving DecidableEq

/-- The developer-key record payload: the project id the key is bound
to and the vrf public key. -/
structure ProtoDeveloperData where
  projectID : String
  vrfpk : String
deriving DecidableEq

/-- Modelled from the spec: project.IsAdminKey(key) (types package, not
under the given sources) verifies the key is among the admin keys of
the project. -/
def Project.IsAdminKey (p : Project) (key : String) : Bool :=
  p.adminKeys.contains key

/-- Modelled from the spec: project.AppendKey(projectKey) (types
package, not under the given sources) appends the key to the key list
of the project. -/
def Project.AppendKey (p : Project) (pk : ProjectKey) : Project :=
  { p with projectKeys := p.projectKeys ++ [pk] }

/-- An API declared by a chain specification, exposing its name. -/
structure Api where
  name : String
deriving DecidableEq

/-- A chain specification as consumed by the policy validator: the
index, the enabled flag and the declared APIs. -/
structure Spec where
  index : String
  enabled : Bool
  apis : List Api
deriving DecidableEq

/-- A structured failure record sent to the error-reporting sink by
utils.LavaError: event name, key-value details, message. -/
structure ErrRecord where
  name : String
  details : List (String × String)
  msg : String
deriving DecidableEq

/-- Errors returned by the keeper operations: structured LavaError
failures (also reported to the sink), plain formatted errors built with
fmt.Errorf, and propagated store errors. -/
inductive KeeperErr where
  | lava : String → List (String × String) → String → KeeperErr
  | fmtError : String → KeeperErr
  | store : StoreErr → KeeperErr
deriving DecidableEq

/-- The keeper state: the two fixation stores, the specification
registry of the spec keeper, the current block height of the execution
context, and the error-reporting sink log. -/
structure KeeperState where
  projectsFS : FixationStore Project
  developerKeysFS : FixationStore ProtoDeveloperData
  specs : List (String × Spec)
  blockHeight : Nat
  log : List ErrRecord
deriving DecidableEq

/-- utils.LavaError: appends a structured failure record to the sink
and returns the corresponding error value, as the Go call sites return
it directly to their caller. -/
def lavaError {β : Type} (st : KeeperState) (name : String)
    (details : List (String × String)) (msg : String) :
    KeeperState × Except KeeperErr β :=
  ({ st with log := st.log ++ [⟨name, details, msg⟩] }, .error (.lava name details msg))

/-- Wraps a store-operation result into the keeper error type, as the
Go call sites return the store error unchanged. -/
def mapStoreErr : Except StoreErr Unit → Except KeeperErr Unit
  | .ok _ => .ok ()
  | .error e => .error (.store e)

/-- GetSpec of the spec keeper, mirroring the Go (spec, found) return:
a miss yields the zero-value specification. -/
def GetSpec (st : KeeperState) (chainId : String) : Spec × Bool :=
  match lookupStr st.specs chainId with
  | some s => (s, true)
  | none => (⟨"", false, []⟩, false)

/-- GetProjectForBlock, translated from the keeper source: a FindEntry
miss or storage error becomes the LavaError project-not-found
failure. -/
def GetProjectForBlock (st : KeeperState) (projectID : String)
    (blockHeight : Nat) : KeeperState × Except KeeperErr Project :=
  match FindEntry st.projectsFS projectID blockHeight with
  | .found project => (st, .ok project)
  | _ =>
      lavaError st "GetProjectForBlock_not_found"
        [("project", projectID), ("blockHeight", toString blockHeight)]
        "project not found"

/-- GetProjectDeveloperData, translated from the keeper source: a
FindEntry miss or storage error becomes a plain fmt.Errorf failure (no
sink report). -/
def GetProjectDeveloperData (st : KeeperState) (developerKey : String)
    (blockHeight : Nat) : KeeperState × Except KeeperErr ProtoDeveloperData :=
  match FindEntry st.developerKeysFS developerKey blockHeight with
  | .found d => (st, .ok d)
  | _ =>
      (st, .error (.fmtError
        ("GetProjectIDForDeveloper_invalid_key, the requesting key is not registered to a project, developer: "
          ++ developerKey)))

/-- GetProjectForDeveloper, translated from the keeper source: resolves
the developer-key record, then the project record at the same height; a
storage error on the second hop is returned as is, a miss becomes the
LavaError project-not-found failure. -/
def GetProjectForDeveloper (st : KeeperState) (developerKey : String)
    (blockHeight : Nat) : KeeperState × Except KeeperErr (Project × String) :=
  let st' := (GetProjectDeveloperData st developerKey blockHeight).1
  match (GetProjectDeveloperData st developerKey blockHeight).2 with
  | .error e => (st', .error e)
  | .ok projectDeveloperData =>
      match FindEntry st'.projectsFS projectDeveloperData.projectID blockHeight with
      | .fault => (st', .error (.store .fault))
      | .notFound =>
          lavaError st' "GetProjectForDeveloper_project_not_found"
            [("developer", developerKey), ("project", projectDeveloperData.projectID)]
            "the developers project was not found"
      | .found project => (st', .ok (project, projectDeveloperData.vrfpk))

/-- Modelled from the spec: RegisterDeveloperKey (not under the given
sources) enforces the uniqueness invariant — it fails when a live
developer-key record already exists for the key at the height — and
otherwise installs the record in the developer-key store via
AppendEntry.  Per the specification the uniqueness failure is a
domain-level failure reported through the sink. -/
def RegisterDeveloperKey (st : KeeperState) (developerKey : String)
    (projectID : String) (blockHeight : Nat) (vrfpk : String) :
    KeeperState × Except KeeperErr Unit :=
  match FindEntry st.developerKeysFS developerKey blockHeight with
  | .fault => (st, .error (.store .fault))
  | .found _ =>
      lavaError st "RegisterDeveloperKey_key_exists"
        [("developerKey", developerKey)] "developer key already registered"
  | .notFound =>
      ({ st with developerKeysFS :=
          (AppendEntry st.developerKeysFS developerKey blockHeight
            ⟨projectID, vrfpk⟩).1 },
        mapStoreErr (AppendEntry st.developerKeysFS developerKey blockHeight
          ⟨projectID, vrfpk⟩).2)

/-- The key-registration loop of AddKeysToProject, translated from the
keeper source: registers each key and accumulates it on the in-memory
project copy, halting on the first failure. -/
def addProjectKeysLoop (st : KeeperState) (project : Project)
    (projectKeys : List ProjectKey) :
    KeeperState × Except KeeperErr Project :=
  match projectKeys with
  | [] => (st, .ok project)
  | projectKey :: rest =>
      let st' := (RegisterDeveloperKey st projectKey.key project.index
        st.blockHeight projectKey.vrfpk).1
      match (RegisterDeveloperKey st projectKey.key project.index st.blockHeight
          projectKey.vrfpk).2 with
      | .error e => (st', .error e)
      | .ok _ => addProjectKeysLoop st' (project.AppendKey projectKey) rest

/-- AddKeysToProject, translated from the keeper source: loads the
project at the current height, checks the admin key, registers each key
while accumulating the project update in memory, and performs the
single project write after the loop via AppendEntry. -/
def AddKeysToProject (st : KeeperState) (projectID : String)
    (adminKey : String) (projectKeys : List ProjectKey) :
    KeeperState × Except KeeperErr Unit :=
  match FindEntry st.projectsFS projectID st.blockHeight with
  | .found project =>
      if !(project.IsAdminKey adminKey) then
        lavaError st "AddProjectKeys_not_admin"
          [("project", projectID)] "the requesting key is not admin key"
      else
        let st' := (addProjectKeysLoop st project projectKeys).1
        match (addProjectKeysLoop st project projectKeys).2 with
        | .error e => (st', .error e)
        | .ok project' =>
            ({ st' with projectsFS :=
                (AppendEntry st'.projectsFS projectID st.blockHeight project').1 },
              mapStoreErr
                (AppendEntry st'.projectsFS projectID st.blockHeight project').2)
  | _ =>
      lavaError st "AddProjectKeys_project_not_found"
        [("project", projectID)] "project id not found"

/-- GetProjectDevelopersPolicy, translated from the keeper source: a
pure selector over the project resolved for the developer key. -/
def GetProjectDevelopersPolicy (st : KeeperState) (developerKey : String)
    (blockHeight : Nat) (adminPolicy : Bool) :
    KeeperState × Except KeeperErr Policy :=
  let st' := (GetProjectForDeveloper st developerKey blockHeight).1
  match (GetProjectForDeveloper st developerKey blockHeight).2 with
  | .error e => (st', .error e)
  | .ok (project, _) =>
      if adminPolicy then (st', .ok project.adminPolicy)
      else (st', .ok project.subscriptionPolicy)

/-- AddComputeUnitsToProject, translated from the keeper source: a nil
project reference fails with the LavaError nil failure; otherwise the
used compute units are incremented — a plain Go uint64 add, wrapping
modulo 2^64 — and the project is written back via ModifyEntry at the
current height. -/
def AddComputeUnitsToProject (st : KeeperState) (project : Option Project)
    (cu : Nat) : KeeperState × Except KeeperErr Unit :=
  match project with
  | none =>
      lavaError st "AddComputeUnitsToProject_project_nil" [] "project is nil"
  | some p =>
      let p' := { p with usedCu := (p.usedCu + cu) % 2 ^ 64 }
      ({ st with projectsFS :=
          (ModifyEntry st.projectsFS p'.index st.blockHeight p').1 },
        mapStoreErr (ModifyEntry st.projectsFS p'.index st.blockHeight p').2)

/-- The inner API scan of ValidateChainPolicies, translated from the
keeper source: the flag-setting loop over the declared APIs of the
specification is equivalent to an existence check by exact string
equality. -/
def apiInSpec (apis : List Api) (policyApi : String) : Bool :=
  apis.any (fun api => api.name == policyApi)

/-- The API loop of ValidateChainPolicies over one chain policy,
translated from the keeper source: fails with the LavaError
api-not-found failure on the first API name absent from the
specification. -/
def checkChainPolicyApis (st : KeeperState) (spec : Spec)
    (apis : List String) : KeeperState × Except KeeperErr Unit :=
  match apis with
  | [] => (st, .ok ())
  | policyApi :: rest =>
      if apiInSpec spec.apis policyApi then checkChainPolicyApis st spec rest
      else
        lavaError st "validateChainPolicies_chain_policy_api_not_found"
          [("specIndex", spec.index), ("API", policyApi)]
          "policy's spec's API not found"

/-- The chain-policy loop of ValidateChainPolicies, translated from the
keeper source. -/
def validateChainPoliciesLoop (st : KeeperState)
    (chainPolicies : List ChainPolicy) : KeeperState × Except KeeperErr Unit :=
  match chainPolicies with
  | [] => (st, .ok ())
  | chainPolicy :: rest =>
      let spec := (GetSpec st chainPolicy.chainId).1
      let found := (GetSpec st chainPolicy.chainId).2
      if !found then
        lavaError st "validateChainPolicies_spec_not_found"
          [("specIndex", spec.index)] "policy's spec not found"
      else if !spec.enabled then
        lavaError st "validateChainPolicies_spec_not_enabled"
          [("specIndex", spec.index)] "policy's spec not enabled"
      else
        let st' := (checkChainPolicyApis st spec chainPolicy.apis).1
        match (checkChainPolicyApis st spec chainPolicy.apis).2 with
        | .ok _ => validateChainPoliciesLoop st' rest
        | .error e => (st', .error e)

/-- ValidateChainPolicies, translated from the keeper source. -/
def ValidateChainPolicies (st : KeeperState) (policy : Policy) :
    KeeperState × Except KeeperErr Unit :=
  validateChainPoliciesLoop st policy.chainPolicies

/-- Operations of the external cosmos-sdk Coins type as consumed by the
add-genesis-account command; coin arithmetic is external to this
repository, so the embedding is parameterized over it. -/
structure CoinsOps (Coins : Type) where
  parseCoinsNormalized : String → Except String Coins
  isZero : Coins → Bool
  sort : Coins → Coins
  isAnyGT : Coins → Coins → Bool
  quoInt : Coins → Int → Coins
  mulInt : Coins → Int → Coins
  isEqual : Coins → Coins → Bool
  add : Coins → Coins → Coins
  validateCoins : Coins → Option String

/-- The concrete genesis account constructed by the add-genesis-account
command. -/
inductive GenAccount (Coins : Type) where
  | base : GenAccount Coins
  | moduleAccount : String → GenAccount Coins
  | periodicVesting : Coins → Int → List (Int × Coins) → GenAccount Coins
  | continuousVesting : Coins → Int → Int → GenAccount Coins
  | delayedVesting : Coins → Int → GenAccount Coins
deriving DecidableEq

/-- The flag values of the add-genesis-account command. -/
structure GenFlags where
  vestingStart : Int
  vestingEnd : Int
  vestingAmt : String
  moduleAccount : Bool
  periodicLength : Int
  periodicNumber : Int
  periodicFirst : String
deriving DecidableEq

/-- The genAccount.Validate() step of the command; the validation
itself is external cosmos-sdk code, passed as a parameter. -/
def validateGenAccount {Coins : Type} (validate : GenAccount Coins → Option String)
    (genAccount : GenAccount Coins) : Except String (GenAccount Coins) :=
  match validate genAccount with
  | some e => .error ("failed to validate new genesis account: " ++ e)
  | none => .ok genAccount

/-- The account-construction body of AddGenesisAccountCmd, translated
from cmd/lavad/cmd/genaccounts.go (flag reads through account
validation; the keyring and genesis-file plumbing around it is
omitted).  Note the periodic-first string is read from the
vesting-amount flag, exactly as in the source at line 119. -/
def addGenesisAccountRun {Coins : Type} (ops : CoinsOps Coins)
    (validate : GenAccount Coins → Option String) (flags : GenFlags)
    (nameArg coinsArg : String) : Except String (GenAccount Coins) :=
  match ops.parseCoinsNormalized coinsArg with
  | .error e => .error ("failed to parse coins: " ++ e)
  | .ok coins =>
    let createModuleAccount := flags.moduleAccount
    let vestingStart := flags.vestingStart
    let vestingEnd := flags.vestingEnd
    let vestingAmtStr := flags.vestingAmt
    match ops.parseCoinsNormalized vestingAmtStr with
    | .error e => .error ("failed to parse vesting amount: " ++ e)
    | .ok vestingAmt =>
      let periodicLength := flags.periodicLength
      let periodicNumber := flags.periodicNumber
      let periodicFirstStr := flags.vestingAmt
      match ops.parseCoinsNormalized periodicFirstStr with
      | .error e => .error ("failed to parse periodicFirst amount: " ++ e)
      | .ok periodicFirst =>
        let balancesCoins := ops.sort coins
        if createModuleAccount then
          validateGenAccount validate (.moduleAccount nameArg)
        else if !(ops.isZero vestingAmt) then
          let originalVesting := ops.sort vestingAmt
          if (ops.isZero balancesCoins && !(ops.isZero originalVesting))
              || ops.isAnyGT originalVesting balancesCoins then
            .error "vesting amount cannot be greater than total amount"
          else if periodicLength != 0 || periodicNumber != 0 then
            if periodicLength ≤ 0 then
              .error "periodic account must set periodicLength flag"
            else if periodicNumber ≤ 0 then
              .error "periodic account must set periodicNumber flag"
            else if vestingStart ≤ 0 then
              .error "periodic account must have vesting start flag"
            else
              match ops.validateCoins periodicFirst with
              | some e =>
                  .error
                    ("periodic account must have vesting first emission none negative "
                      ++ e)
              | none =>
                  if !(ops.isEqual
                      (ops.mulInt (ops.quoInt vestingAmt periodicNumber)
                        periodicNumber) vestingAmt) then
                    .error "periodic vesting amount must be divisble by the periodicNumber"
                  else
                    let periods := (0, periodicFirst) ::
                      List.replicate periodicNumber.toNat
                        (periodicLength, ops.quoInt vestingAmt periodicNumber)
                    validateGenAccount validate
                      (.periodicVesting (ops.add vestingAmt periodicFirst)
                        vestingStart periods)
          else if vestingStart != 0 && vestingEnd != 0 then
            validateGenAccount validate
              (.continuousVesting originalVesting vestingEnd vestingStart)
          else if vestingEnd != 0 then
            validateGenAccount validate (.delayedVesting originalVesting vestingEnd)
          else
            .error "invalid vesting parameters; must supply start and end time or end time"
        else
          validateGenAccount validate .base

/-! Shared concrete fixtures used by witnesses and counterexamples. -/

/-- A sample project with one admin key and no developer keys. -/
def projP : Project := ⟨"P1", ["A"], [], 0, ⟨[]⟩, ⟨[]⟩⟩

/-- A keeper state holding the sample project at height 10, current
height 12, and an empty developer-key store. -/
def stBase : KeeperState :=
  ⟨⟨[("P1", ⟨[(10, projP)], none⟩)], []⟩, ⟨[], []⟩, [], 12, []⟩

/-- A keeper state like stBase whose developer-key store already binds
the key D2. -/
def stKeys : KeeperState :=
  ⟨⟨[("P1", ⟨[(10, projP)], none⟩)], []⟩,
    ⟨[("D2", ⟨[(5, ⟨"Q1", "v0"⟩)], none⟩)], []⟩, [], 12, []⟩

/-! Helper lemmas about the modelled store and the keeper
operations. -/

/-- Looking up the key just set resolves to the new binding. -/
theorem lookupStr_setStr {β : Type} (l : List (String × β)) (k : String)
    (v : β) : lookupStr (setStr l k v) k = some v := by
  induction l with
  | nil => simp [setStr, lookupStr]
  | cons hd tl ih =>
      obtain ⟨k', v'⟩ := hd
      cases h : k' == k with
      | true => simp [setStr, h, lookupStr]
      | false => simp [setStr, h, lookupStr, ih]

/-- AppendEntry either succeeds or leaves the store unchanged. -/
theorem AppendEntry_ok_or_unchanged {α : Type} (s : FixationStore α)
    (index : String) (hh : Nat) (e : α) :
    (AppendEntry s index hh e).2 = .ok () ∨ (AppendEntry s index hh e).1 = s := by
  unfold AppendEntry
  cases hl : lookupStr s.entries index with
  | none => left; rfl
  | some el =>
      obtain ⟨vs, da⟩ := el
      cases vs with
      | nil => left; rfl
      | cons hd tl =>
          obtain ⟨vh, q⟩ := hd
          cases h1 : hh == vh with
          | true => right; simp [h1]
          | false =>
              by_cases h2 : hh < vh
              · right; simp [h1, h2]
              · left; simp [h1, h2]

/-- RegisterDeveloperKey never touches the projects store. -/
theorem RegisterDeveloperKey_projectsFS (st : KeeperState) (dk pid : String)
    (hh : Nat) (v : String) :
    ((RegisterDeveloperKey st dk pid hh v).1).projectsFS = st.projectsFS := by
  unfold RegisterDeveloperKey
  cases hF : FindEntry st.developerKeysFS dk hh <;> rfl

/-- The key-registration loop never touches the projects store. -/
theorem addProjectKeysLoop_projectsFS (st : KeeperState) (project : Project)
    (keys : List ProjectKey) :
    ((addProjectKeysLoop st project keys).1).projectsFS = st.projectsFS := by
  induction keys generalizing st project with
  | nil => rfl
  | cons pk rest ih =>
      unfold addProjectKeysLoop
      have h2 := RegisterDeveloperKey_projectsFS st pk.key project.index
        st.blockHeight pk.vrfpk
      cases hR : (RegisterDeveloperKey st pk.key project.index st.blockHeight
          pk.vrfpk).2 with
      | error e => exact h2
      | ok u =>
          rw [ih]
          exact h2

/-! Claims about AddKeysToProject. -/

/-- Claim C1, counterexample: with project P1 live at the current
height and the developer key D2 already registered, a batch of the
fresh key D1 followed by D2 fails on D2, yet D1 has been durably
registered in the developer-key store by the failed call — a partial
key set is persisted, against the claim. -/
theorem AddKeysToProject_partial_persist_counterexample :
    (AddKeysToProject stKeys "P1" "A" [⟨"D1", "v1"⟩, ⟨"D2", "v2"⟩]).2 =
      .error (.lava "RegisterDeveloperKey_key_exists" [("developerKey", "D2")]
        "developer key already registered") ∧
    FindEntry (AddKeysToProject stKeys "P1" "A"
      [⟨"D1", "v1"⟩, ⟨"D2", "v2"⟩]).1.developerKeysFS "D1" 12 =
      .found ⟨"P1", "v1"⟩ ∧
    FindEntry stKeys.developerKeysFS "D1" 12 = .notFound := by
  refine ⟨rfl, rfl, rfl⟩

/-- Claim C1, amended: when any key registration in the batch fails,
the whole call returns the error and the project record is not written
— the projects store is exactly the one before the call — although
developer-key registrations already performed for earlier keys of the
batch remain persisted in the developer-key store. -/
theorem AddKeysToProject_error_projects_unchanged (st : KeeperState)
    (projectID adminKey : String) (projectKeys : List ProjectKey)
    (e : KeeperErr)
    (h : (AddKeysToProject st projectID adminKey projectKeys).2 = .error e) :
    ((AddKeysToProject st projectID adminKey projectKeys).1).projectsFS =
      st.projectsFS := by
  unfold AddKeysToProject at h ⊢
  cases hF : FindEntry st.projectsFS projectID st.blockHeight with
  | fault => rfl
  | notFound => rfl
  | found project =>
      rw [hF] at h
      cases hA : project.IsAdminKey adminKey with
      | false => simp [hA, lavaError]
      | true =>
          simp only [hA, Bool.not_true] at h ⊢
          have hLoop := addProjectKeysLoop_projectsFS st project projectKeys
          cases hL : (addProjectKeysLoop st project projectKeys).2 with
          | error e2 => simpa using hLoop
          | ok project' =>
              rw [hL] at h
              simp only [Bool.false_eq_true, if_false] at h ⊢
              rcases AppendEntry_ok_or_unchanged
                (addProjectKeysLoop st project projectKeys).1.projectsFS
                projectID st.blockHeight project' with hOk | hUn
              · rw [hOk] at h
                simp [mapStoreErr] at h
              · rw [hUn]
                exact hLoop

/-- Claim C1, witness for the amended theorem at a concrete failing
call: a non-admin key makes the call fail and the projects store is
unchanged. -/
theorem AddKeysToProject_error_projects_unchanged_witness :
    ((AddKeysToProject stBase "P1" "B" []).1).projectsFS =
      stBase.projectsFS :=
  AddKeysToProject_error_projects_unchanged stBase "P1" "B" []
    (.lava "AddProjectKeys_not_admin" [("project", "P1")]
      "the requesting key is not admin key") rfl

/-- Claim C4: a call whose adminKey is not among the admin keys of the
project fails with the authorization LavaError; only the sink log
grows, so neither a developer key nor a project version is written. -/
theorem AddKeysToProject_not_admin (st : KeeperState)
    (projectID adminKey : String) (projectKeys : List ProjectKey)
    (project : Project)
    (hfind : FindEntry st.projectsFS projectID st.blockHeight = .found project)
    (hadmin : project.IsAdminKey adminKey = false) :
    AddKeysToProject st projectID adminKey projectKeys =
      ({ st with log := st.log ++ [⟨"AddProjectKeys_not_admin",
          [("project", projectID)], "the requesting key is not admin key"⟩] },
        .error (.lava "AddProjectKeys_not_admin" [("project", projectID)]
          "the requesting key is not admin key")) := by
  unfold AddKeysToProject
  rw [hfind]
  simp [hadmin, lavaError]

/-- Claim C4, witness: the concrete call with non-admin key B fails
with the authorization error and leaves both stores unchanged. -/
theorem AddKeysToProject_not_admin_witness :
    AddKeysToProject stBase "P1" "B" [⟨"D1", "v1"⟩] =
      ({ stBase with log := stBase.log ++ [⟨"AddProjectKeys_not_admin",
          [("project", "P1")], "the requesting key is not admin key"⟩] },
        .error (.lava "AddProjectKeys_not_admin" [("project", "P1")]
          "the requesting key is not admin key")) :=
  AddKeysToProject_not_admin stBase "P1" "B" [⟨"D1", "v1"⟩] projP rfl rfl

/-! Claims about AddComputeUnitsToProject. -/

/-- Claim C7: for every state and cu, a nil project reference fails
with the nil-reference LavaError and performs no store write — the
resulting state differs only by the sink record. -/
theorem AddComputeUnitsToProject_nil (st : KeeperState) (cu : Nat) :
    AddComputeUnitsToProject st none cu =
      ({ st with log := st.log ++ [⟨"AddComputeUnitsToProject_project_nil", [],
          "project is nil"⟩] },
        .error (.lava "AddComputeUnitsToProject_project_nil" []
          "project is nil")) := rfl

/-- A project whose compute-unit accumulator sits at the top of the
uint64 range. -/
def projCu : Project := ⟨"P1", ["A"], [], 2 ^ 64 - 1, ⟨[]⟩, ⟨[]⟩⟩

/-- A keeper state holding projCu at the current height 12. -/
def stCu : KeeperState :=
  ⟨⟨[("P1", ⟨[(12, projCu)], none⟩)], []⟩, ⟨[], []⟩, [], 12, []⟩

/-- Claim C2, counterexample: with used_cu at 2^64 - 1, adding one more
compute unit succeeds and stores used_cu = 0 — the addition is the
unguarded machine add wrapping modulo 2^64, so no explicit overflow
guard exists. -/
theorem AddComputeUnitsToProject_wrap_counterexample :
    (AddComputeUnitsToProject stCu (some projCu) 1).2 = .ok () ∧
    FindEntry (AddComputeUnitsToProject stCu (some projCu) 1).1.projectsFS
      "P1" 12 = .found { projCu with usedCu := 0 } := ⟨rfl, rfl⟩

/-- Claim C2, amended: AddComputeUnitsToProject increments used_cu by
cu wrapping modulo 2^64 — with no overflow guard — and writes the
project back to the store via ModifyEntry at the current height, where
a later FindEntry resolves the written payload. -/
theorem AddComputeUnitsToProject_wraps (st : KeeperState) (p : Project)
    (cu : Nat) (q : Project) (rest : List (Nat × Project))
    (hfaulty : st.projectsFS.faulty.contains p.index = false)
    (hlookup : lookupStr st.projectsFS.entries p.index =
      some ⟨(st.blockHeight, q) :: rest, none⟩) :
    (AddComputeUnitsToProject st (some p) cu).2 = .ok () ∧
    FindEntry (AddComputeUnitsToProject st (some p) cu).1.projectsFS p.index
      st.blockHeight = .found { p with usedCu := (p.usedCu + cu) % 2 ^ 64 } := by
  unfold AddComputeUnitsToProject ModifyEntry
  dsimp only
  rw [hlookup]
  simp only [beq_self_eq_true, if_true]
  constructor
  · rfl
  · unfold FindEntry
    dsimp only
    rw [hfaulty]
    simp only [Bool.false_eq_true, if_false]
    rw [lookupStr_setStr]
    simp [findVersion]

/-- Claim C2, witness for the amended theorem at a concrete state. -/
theorem AddComputeUnitsToProject_wraps_witness :
    (AddComputeUnitsToProject stCu (some projCu) 5).2 = .ok () ∧
    FindEntry (AddComputeUnitsToProject stCu (some projCu) 5).1.projectsFS
      projCu.index stCu.blockHeight =
      .found { projCu with usedCu := (projCu.usedCu + 5) % 2 ^ 64 } :=
  AddComputeUnitsToProject_wraps stCu projCu 5 projCu [] rfl rfl

/-- A keeper state whose sample project version sits exactly at the
current block height. -/
def stNow : KeeperState :=
  ⟨⟨[("P1", ⟨[(12, projP)], none⟩)], []⟩, ⟨[], []⟩, [], 12, []⟩

/-- Claim C9, counterexample: the sample project exists at the current
height and the admin key is valid, yet the empty-batch call does not
write the project back — the unconditional AppendEntry is rejected with
DuplicateVersionError because the latest project version was created at
the current height, and the state is returned unchanged. -/
theorem AddKeysToProject_empty_current_height_counterexample :
    FindEntry stNow.projectsFS "P1" stNow.blockHeight = .found projP ∧
    projP.IsAdminKey "A" = true ∧
    AddKeysToProject stNow "P1" "A" [] =
      (stNow, .error (.store .duplicateVersion)) := ⟨rfl, rfl, rfl⟩

/-- Claim C9, amended: with a valid admin key and an empty key batch,
no developer key is registered and the project write is still issued
unconditionally; whenever the latest project version height is strictly
below the current height, AppendEntry installs a new version at the
current height with the unchanged project payload, leaving the
developer-key store and the log untouched. -/
theorem AddKeysToProject_empty_appends (st : KeeperState)
    (projectID adminKey : String) (project : Project)
    (vh : Nat) (q : Project) (rest : List (Nat × Project)) (da : Option Nat)
    (hfind : FindEntry st.projectsFS projectID st.blockHeight = .found project)
    (hadmin : project.IsAdminKey adminKey = true)
    (hlookup : lookupStr st.projectsFS.entries projectID =
      some ⟨(vh, q) :: rest, da⟩)
    (hlt : vh < st.blockHeight) :
    AddKeysToProject st projectID adminKey [] =
      ({ st with projectsFS := { st.projectsFS with entries :=
          (setStr st.projectsFS.entries projectID
            ⟨(st.blockHeight, project) :: (vh, q) :: rest, da⟩) } },
        .ok ()) := by
  unfold AddKeysToProject
  rw [hfind]
  simp only [hadmin, Bool.not_true, Bool.false_eq_true, if_false]
  unfold addProjectKeysLoop
  dsimp only
  unfold AppendEntry
  rw [hlookup]
  have hne : (st.blockHeight == vh) = false :=
    beq_eq_false_iff_ne.mpr (Nat.ne_of_gt hlt)
  have hnlt : ¬(st.blockHeight < vh) := Nat.lt_asymm hlt
  simp only [hne, Bool.false_eq_true, if_false, hnlt]
  rfl

/-- Claim C9, witness for the amended theorem: at stBase (project
version at height 10, current height 12) the empty-batch call appends
the unchanged project at height 12. -/
theorem AddKeysToProject_empty_appends_witness :
    AddKeysToProject stBase "P1" "A" [] =
      ({ stBase with projectsFS := { stBase.projectsFS with entries :=
          (setStr stBase.projectsFS.entries "P1"
            ⟨(stBase.blockHeight, projP) :: [(10, projP)], none⟩) } },
        .ok ()) :=
  AddKeysToProject_empty_appends stBase "P1" "A" projP 10 projP [] none
    rfl rfl rfl (by decide)

/-- A sample developer-key record binding key D to project P1. -/
def devD : ProtoDeveloperData := ⟨"P1", "v"⟩

/-- A keeper state where both resolution hops succeed: developer key D
at height 5 pointing to project P1, which exists at height 10. -/
def stDev : KeeperState :=
  ⟨⟨[("P1", ⟨[(10, projP)], none⟩)], []⟩, ⟨[("D", ⟨[(5, devD)], none⟩)], []⟩,
    [], 12, []⟩

/-- A keeper state with both stores empty. -/
def stEmpty : KeeperState := ⟨⟨[], []⟩, ⟨[], []⟩, [], 12, []⟩

/-- A keeper state where both stores report substrate faults for P1
and D. -/
def stFault : KeeperState := ⟨⟨[], ["P1"]⟩, ⟨[], ["D"]⟩, [], 12, []⟩

/-- A keeper state where developer key D resolves but its project is
absent. -/
def stNoProj : KeeperState :=
  ⟨⟨[], []⟩, ⟨[("D", ⟨[(5, devD)], none⟩)], []⟩, [], 12, []⟩

/-- Claim C5: GetProjectForDeveloper resolves in two hops — the
developer-key record at the height, then the project record for the
project id found inside it at the same height; it succeeds with the
project exactly when both hops find their record, and fails with the
corresponding not-found error when either hop reports not found. -/
theorem GetProjectForDeveloper_two_hop (st : KeeperState) (dk : String)
    (hh : Nat) :
    (∀ d p, FindEntry st.developerKeysFS dk hh = .found d →
      FindEntry st.projectsFS d.projectID hh = .found p →
      (GetProjectForDeveloper st dk hh).2 = .ok (p, d.vrfpk)) ∧
    ((FindEntry st.developerKeysFS dk hh).isFound = false →
      (GetProjectForDeveloper st dk hh).2 = .error (.fmtError
        ("GetProjectIDForDeveloper_invalid_key, the requesting key is not registered to a project, developer: "
          ++ dk))) ∧
    (∀ d, FindEntry st.developerKeysFS dk hh = .found d →
      FindEntry st.projectsFS d.projectID hh = .notFound →
      (GetProjectForDeveloper st dk hh).2 = .error (.lava
        "GetProjectForDeveloper_project_not_found"
        [("developer", dk), ("project", d.projectID)]
        "the developers project was not found")) ∧
    (∀ p v, (GetProjectForDeveloper st dk hh).2 = .ok (p, v) →
      ∃ d, FindEntry st.developerKeysFS dk hh = .found d ∧
        FindEntry st.projectsFS d.projectID hh = .found p ∧ v = d.vrfpk) := by
  unfold GetProjectForDeveloper GetProjectDeveloperData
  dsimp only
  cases hD : FindEntry st.developerKeysFS dk hh with
  | fault =>
      refine ⟨?_, ?_, ?_, ?_⟩
      · intro d p hd hp; simp at hd
      · intro h2; rfl
      · intro d hd hp; simp at hd
      · intro p v hok; simp at hok
  | notFound =>
      refine ⟨?_, ?_, ?_, ?_⟩
      · intro d p hd hp; simp at hd
      · intro h2; rfl
      · intro d hd hp; simp at hd
      · intro p v hok; simp at hok
  | found d0 =>
      dsimp only
      cases hP : FindEntry st.projectsFS d0.projectID hh with
      | fault =>
          refine ⟨?_, ?_, ?_, ?_⟩
          · intro d p hd hp
            injection hd with h3; subst h3
            rw [hP] at hp; simp at hp
          · intro h2; simp [FindResult.isFound] at h2
          · intro d hd hp
            injection hd with h3; subst h3
            rw [hP] at hp; simp at hp
          · intro p v hok; simp at hok
      | notFound =>
          refine ⟨?_, ?_, ?_, ?_⟩
          · intro d p hd hp
            injection hd with h3; subst h3
            rw [hP] at hp; simp at hp
          · intro h2; simp [FindResult.isFound] at h2
          · intro d hd hp
            injection hd with h3; subst h3
            rfl
          · intro p v hok; simp [lavaError] at hok
      | found p0 =>
          refine ⟨?_, ?_, ?_, ?_⟩
          · intro d p hd hp
            injection hd with h3; subst h3
            rw [hP] at hp
            injection hp with h4; subst h4
            rfl
          · intro h2; simp [FindResult.isFound] at h2
          · intro d hd hp
            injection hd with h3; subst h3
            rw [hP] at hp; simp at hp
          · intro p v hok
            simp only [Except.ok.injEq, Prod.mk.injEq] at hok
            obtain ⟨h5, h6⟩ := hok
            exact ⟨d0, rfl, by rw [hP, h5], h6.symm⟩

/-- Claim C5, witness at concrete states: both hops succeed, the first
hop fails, and the second hop fails. -/
theorem GetProjectForDeveloper_two_hop_witness :
    (GetProjectForDeveloper stDev "D" 12).2 = .ok (projP, "v") ∧
    (GetProjectForDeveloper stEmpty "D" 12).2 = .error (.fmtError
      ("GetProjectIDForDeveloper_invalid_key, the requesting key is not registered to a project, developer: "
        ++ "D")) ∧
    (GetProjectForDeveloper stNoProj "D" 12).2 = .error (.lava
      "GetProjectForDeveloper_project_not_found"
      [("developer", "D"), ("project", "P1")]
      "the developers project was not found") := by
  refine ⟨?_, ?_, ?_⟩
  · exact (GetProjectForDeveloper_two_hop stDev "D" 12).1 devD projP rfl rfl
  · exact (GetProjectForDeveloper_two_hop stEmpty "D" 12).2.1 rfl
  · exact (GetProjectForDeveloper_two_hop stNoProj "D" 12).2.2.1 devD rfl rfl

/-- Claim C8: GetProjectForBlock and GetProjectDeveloperData return
literally the same domain not-found error whether FindEntry reports a
substrate storage fault or reports the entry absent — storage faults
are not surfaced as a distinct failure at this interface. -/
theorem notFound_fault_indistinguishable (st st2 : KeeperState)
    (pid dk : String) (hh : Nat)
    (h1 : FindEntry st.projectsFS pid hh = .fault)
    (h2 : FindEntry st2.projectsFS pid hh = .notFound)
    (h3 : FindEntry st.developerKeysFS dk hh = .fault)
    (h4 : FindEntry st2.developerKeysFS dk hh = .notFound) :
    (GetProjectForBlock st pid hh).2 = (GetProjectForBlock st2 pid hh).2 ∧
    (GetProjectForBlock st pid hh).2 = .error (.lava
      "GetProjectForBlock_not_found"
      [("project", pid), ("blockHeight", toString hh)] "project not found") ∧
    (GetProjectDeveloperData st dk hh).2 =
      (GetProjectDeveloperData st2 dk hh).2 ∧
    (GetProjectDeveloperData st dk hh).2 = .error (.fmtError
      ("GetProjectIDForDeveloper_invalid_key, the requesting key is not registered to a project, developer: "
        ++ dk)) := by
  unfold GetProjectForBlock GetProjectDeveloperData
  rw [h1, h2, h3, h4]
  exact ⟨rfl, rfl, rfl, rfl⟩

/-- Claim C8, witness: a faulting store and an empty store produce the
same errors for project P1 and developer key D at height 3. -/
theorem notFound_fault_indistinguishable_witness :
    (GetProjectForBlock stFault "P1" 3).2 =
      (GetProjectForBlock stEmpty "P1" 3).2 ∧
    (GetProjectForBlock stFault "P1" 3).2 = .error (.lava
      "GetProjectForBlock_not_found"
      [("project", "P1"), ("blockHeight", toString 3)] "project not found") ∧
    (GetProjectDeveloperData stFault "D" 3).2 =
      (GetProjectDeveloperData stEmpty "D" 3).2 ∧
    (GetProjectDeveloperData stFault "D" 3).2 = .error (.fmtError
      ("GetProjectIDForDeveloper_invalid_key, the requesting key is not registered to a project, developer: "
        ++ "D")) :=
  notFound_fault_indistinguishable stFault stEmpty "P1" "D" 3 rfl rfl rfl rfl

/-- Claim C3, counterexample: the developer-key lookup failure of
GetProjectDeveloperData is returned to the caller as a plain formatted
error while the state — including the error-reporting sink log — is
completely unchanged, so this domain-level failure is not reported
through the sink. -/
theorem GetProjectDeveloperData_no_sink_counterexample :
    (GetProjectDeveloperData stEmpty "D" 5).2 = .error (.fmtError
      ("GetProjectIDForDeveloper_invalid_key, the requesting key is not registered to a project, developer: "
        ++ "D")) ∧
    (GetProjectDeveloperData stEmpty "D" 5).1 = stEmpty := ⟨rfl, rfl⟩

/-- Claim C3, amended: domain-level failures raised through the
LavaError helper, such as the not-found failure of GetProjectForBlock,
append a structured record to the error-reporting sink, but the
developer-key lookup failure of GetProjectDeveloperData is only
returned to the caller as a plain formatted error and leaves the sink
log unchanged. -/
theorem domain_failures_sink_reporting :
    (∀ st : KeeperState, ∀ pid : String, ∀ hh : Nat,
      (FindEntry st.projectsFS pid hh).isFound = false →
      (GetProjectForBlock st pid hh).1.log = st.log ++
        [⟨"GetProjectForBlock_not_found",
          [("project", pid), ("blockHeight", toString hh)],
          "project not found"⟩]) ∧
    (∀ st : KeeperState, ∀ dk : String, ∀ hh : Nat,
      (FindEntry st.developerKeysFS dk hh).isFound = false →
      (GetProjectDeveloperData st dk hh).1.log = st.log ∧
      (GetProjectDeveloperData st dk hh).2 = .error (.fmtError
        ("GetProjectIDForDeveloper_invalid_key, the requesting key is not registered to a project, developer: "
          ++ dk))) := by
  constructor
  · intro st pid hh h
    unfold GetProjectForBlock
    cases hF : FindEntry st.projectsFS pid hh with
    | fault => rfl
    | notFound => rfl
    | found p => simp [hF, FindResult.isFound] at h
  · intro st dk hh h
    unfold GetProjectDeveloperData
    cases hF : FindEntry st.developerKeysFS dk hh with
    | fault => exact ⟨rfl, rfl⟩
    | notFound => exact ⟨rfl, rfl⟩
    | found d => simp [hF, FindResult.isFound] at h

/-- Claim C3, witness for the amended theorem at concrete failing
lookups on the empty state. -/
theorem domain_failures_sink_reporting_witness :
    (GetProjectForBlock stEmpty "P1" 5).1.log = stEmpty.log ++
      [⟨"GetProjectForBlock_not_found",
        [("project", "P1"), ("blockHeight", toString 5)],
        "project not found"⟩] ∧
    (GetProjectDeveloperData stEmpty "D" 5).1.log = stEmpty.log ∧
    (GetProjectDeveloperData stEmpty "D" 5).2 = .error (.fmtError
      ("GetProjectIDForDeveloper_invalid_key, the requesting key is not registered to a project, developer: "
        ++ "D")) :=
  ⟨domain_failures_sink_reporting.1 stEmpty "P1" 5 rfl,
    domain_failures_sink_reporting.2 stEmpty "D" 5 rfl⟩

/-- Specification-side classification of a chain-policy violation:
referenced spec absent, spec present but disabled, or a declared API
name absent from the specification (carrying the spec index and the
offending name). -/
inductive PolicyViolation where
  | specNotFound : PolicyViolation
  | specDisabled : String → PolicyViolation
  | apiNotFound : String → String → PolicyViolation
deriving DecidableEq

/-- The keeper error each violation kind is reported as; the
spec-not-found details carry the empty index of the zero-value
specification, as the Go source reads spec.GetIndex() off the miss. -/
def PolicyViolation.toErr : PolicyViolation → KeeperErr
  | .specNotFound =>
      .lava "validateChainPolicies_spec_not_found" [("specIndex", "")]
        "policy's spec not found"
  | .specDisabled si =>
      .lava "validateChainPolicies_spec_not_enabled" [("specIndex", si)]
        "policy's spec not enabled"
  | .apiNotFound si a =>
      .lava "validateChainPolicies_chain_policy_api_not_found"
        [("specIndex", si), ("API", a)] "policy's spec's API not found"

/-- The sink record each violation kind is logged as. -/
def PolicyViolation.toRecord : PolicyViolation → ErrRecord
  | .specNotFound =>
      ⟨"validateChainPolicies_spec_not_found", [("specIndex", "")],
        "policy's spec not found"⟩
  | .specDisabled si =>
      ⟨"validateChainPolicies_spec_not_enabled", [("specIndex", si)],
        "policy's spec not enabled"⟩
  | .apiNotFound si a =>
      ⟨"validateChainPolicies_chain_policy_api_not_found",
        [("specIndex", si), ("API", a)], "policy's spec's API not found"⟩

/-- Specification-side, following the words of the spec: the first
violation of one chain policy — the spec must be present and enabled,
and every declared API name must be among the declared API names of the
specification under exact case-sensitive string comparison. -/
def chainPolicyViolation (st : KeeperState) (cp : ChainPolicy) :
    Option PolicyViolation :=
  match lookupStr st.specs cp.chainId with
  | none => some .specNotFound
  | some spec =>
      if spec.enabled = false then some (.specDisabled spec.index)
      else
        match cp.apis.find? (fun a => !((spec.apis.map Api.name).contains a)) with
        | some a => some (.apiNotFound spec.index a)
        | none => none

/-- Specification-side: the first violation over the chain policies in
declaration order — validation short-circuits there. -/
def firstViolation (st : KeeperState) : List ChainPolicy → Option PolicyViolation
  | [] => none
  | cp :: rest =>
      match chainPolicyViolation st cp with
      | some v => some v
      | none => firstViolation st rest

/-- String equality tests are symmetric. -/
theorem strBeq_comm (s t : String) : (s == t) = (t == s) := by
  by_cases h : s = t
  · subst h; rfl
  · rw [beq_eq_false_iff_ne.mpr h, beq_eq_false_iff_ne.mpr (Ne.symm h)]

/-- The flag-setting API scan of the source equals list membership of
the API name among the declared names. -/
theorem apiInSpec_eq_contains (apis : List Api) (a : String) :
    apiInSpec apis a = (apis.map Api.name).contains a := by
  induction apis with
  | nil => rfl
  | cons hd tl ih =>
      simp only [apiInSpec, List.any_cons, List.map_cons, List.contains_cons]
      rw [strBeq_comm a hd.name]
      simp only [apiInSpec] at ih
      rw [ih]

/-- The API loop of one chain policy succeeds without state change when
every declared name is present, and otherwise logs and returns the
api-not-found error for the first absent name. -/
theorem checkChainPolicyApis_spec (st : KeeperState) (spec : Spec)
    (apis : List String) :
    (match apis.find? (fun a => !((spec.apis.map Api.name).contains a)) with
     | none => checkChainPolicyApis st spec apis = (st, .ok ())
     | some a => checkChainPolicyApis st spec apis =
        ({ st with log := st.log ++
            [⟨"validateChainPolicies_chain_policy_api_not_found",
              [("specIndex", spec.index), ("API", a)],
              "policy's spec's API not found"⟩] },
          .error (.lava "validateChainPolicies_chain_policy_api_not_found"
            [("specIndex", spec.index), ("API", a)]
            "policy's spec's API not found"))) := by
  induction apis with
  | nil => exact rfl
  | cons a rest ih =>
      cases hC : (spec.apis.map Api.name).contains a with
      | true =>
          have hA : apiInSpec spec.apis a = true := by
            rw [apiInSpec_eq_contains, hC]
          simp only [List.find?_cons, hC, Bool.not_true]
          unfold checkChainPolicyApis
          simp only [hA, if_true]
          exact ih
      | false =>
          have hA : apiInSpec spec.apis a = false := by
            rw [apiInSpec_eq_contains, hC]
          simp only [List.find?_cons, hC, Bool.not_false]
          unfold checkChainPolicyApis
          simp only [hA, Bool.false_eq_true, if_false]
          exact rfl

/-- The chain-policy loop is fully characterized by the first
violation: success with the state unchanged when none exists, and
otherwise the violation error with exactly one sink record
appended. -/
theorem validateChainPoliciesLoop_spec (cps : List ChainPolicy)
    (st : KeeperState) :
    validateChainPoliciesLoop st cps =
      (match firstViolation st cps with
       | none => (st, Except.ok ())
       | some v => ({ st with log := st.log ++ [v.toRecord] },
          Except.error v.toErr)) := by
  induction cps with
  | nil => exact rfl
  | cons cp rest ih =>
      unfold validateChainPoliciesLoop firstViolation chainPolicyViolation GetSpec
      cases hS : lookupStr st.specs cp.chainId with
      | none => exact rfl
      | some spec =>
          dsimp only
          cases hE : spec.enabled with
          | false => exact rfl
          | true =>
              cases hF : cp.apis.find?
                  (fun a => !((spec.apis.map Api.name).contains a)) with
              | none =>
                  have hCheck := checkChainPolicyApis_spec st spec cp.apis
                  rw [hF] at hCheck
                  dsimp only at hCheck
                  rw [hCheck]
                  dsimp only
                  exact ih
              | some a =>
                  have hCheck := checkChainPolicyApis_spec st spec cp.apis
                  rw [hF] at hCheck
                  dsimp only at hCheck
                  rw [hCheck]
                  exact rfl

/-- Claim C6: ValidateChainPolicies equals the specification-side
first-violation semantics — SpecNotFoundError when a referenced spec is
absent, SpecDisabledError when present but disabled, ApiNotFoundError
when a declared API name is missing from the spec under exact
case-sensitive comparison, short-circuiting at the first violation;
with no violation it succeeds and leaves the state untouched, and in
every case the stores are unchanged (only the sink log can grow by the
single reported failure). -/
theorem ValidateChainPolicies_characterization (st : KeeperState)
    (policy : Policy) :
    ValidateChainPolicies st policy =
      (match firstViolation st policy.chainPolicies with
       | none => (st, Except.ok ())
       | some v => ({ st with log := st.log ++ [v.toRecord] },
          Except.error v.toErr)) :=
  validateChainPoliciesLoop_spec policy.chainPolicies st

/-- A concrete single-denomination instantiation of the coin
operations, used to evaluate the command on explicit inputs. -/
def natCoinsOps : CoinsOps Nat where
  parseCoinsNormalized := fun s =>
    if s == "" then .ok 0
    else if s == "7" then .ok 7
    else if s == "100" then .ok 100
    else if s == "200" then .ok 200
    else .error "invalid coins"
  isZero := fun c => c == 0
  sort := fun c => c
  isAnyGT := fun a b => decide (b < a)
  quoInt := fun c k => c / k.toNat
  mulInt := fun c k => c * k.toNat
  isEqual := fun a b => a == b
  add := fun a b => a + b
  validateCoins := fun _ => none

/-- Flags of a periodic-vesting invocation where the vesting amount is
100 and the periodic-first flag carries the different value 7. -/
def demoFlags : GenFlags := ⟨1, 100, "100", false, 1, 10, "7"⟩

/-- Claim C10: the first-emission amount of a periodic vesting account
is parsed from the vesting-amount flag string, never from the
periodic-first flag — the command result is invariant under arbitrary
changes of the periodic-first value, and on the concrete demo flags the
constructed first period carries the vesting amount 100 although the
periodic-first flag said 7. -/
theorem periodicFirst_flag_ignored :
    (∀ (Coins : Type) (ops : CoinsOps Coins)
      (validate : GenAccount Coins → Option String) (flags : GenFlags)
      (nameArg coinsArg x : String),
      addGenesisAccountRun ops validate flags nameArg coinsArg =
        addGenesisAccountRun ops validate { flags with periodicFirst := x }
          nameArg coinsArg) ∧
    addGenesisAccountRun natCoinsOps (fun _ => none) demoFlags "alice" "200" =
      .ok (.periodicVesting 200 1 ((0, 100) :: List.replicate 10 (1, 10))) :=
  ⟨fun _ _ _ _ _ _ _ => rfl, rfl⟩
